import Mathlib

/-!
Verification of the steamdeck-hid input aggregator (src/steamdeck.py).

The development shallowly embeds the program's core:

* `decode_steamdeck_report` — the HID report decoder (steamdeck.py lines 21-75).
  A report is a byte buffer, modelled as a `List Nat` whose entries are read
  modulo 256 (a Python `bytes` object always holds values below 256).  The
  Python function mutates a caller-supplied dict and can raise `IndexError`
  (indexing past the end of the buffer) or `struct.error` (unpacking a slice
  shorter than two bytes); the embedding returns the mutated dict together
  with an `Option PyError` recording whether an exception escaped, and the
  point at which it escaped determines which writes have happened.
* `read_hidraw` — the raw-report polling loop (lines 128-146), folded over a
  finite list of reads.
* `applyKeyEvent` / `read_device_events` — the evdev key-event reader
  (lines 100-126) restricted to its state-bucket updates.
* `on_change` / `processItems` / `process_inputs` — the dispatcher (lines
  95-98) and the aggregation/change-detection loop (lines 148-168).  A
  listener is modelled by its observable behaviour: a function saying, for a
  given `(key, value)` call, whether the callback raises.  The dispatcher
  records which listeners were invoked, so that control-flow properties
  (a raising callback aborting the loop) are visible in the model.

Python dicts are modelled as insertion-ordered association lists
(`Bucket`), with `Bucket.set` replacing in place and `Bucket.get?` finding
the first (unique) occurrence, matching `d[k] = v` and `d.get(k)`.
Python's numeric equality makes `True == 1` and `False == 0` (bool is a
subclass of int); `Value.toInt` and `pyNe` embed that.
-/

namespace SteamDeckHID

/-- A Python value stored in a state dict: a bool (digital field) or an
int (axis field). -/
inductive Value where
  | bool : Bool → Value
  | int : Int → Value
deriving DecidableEq, Repr

/-- Numeric view of a value: Python's `bool` is a subclass of `int` with
`True == 1` and `False == 0`, and `==`/`!=`/`-` on mixed bool/int operands
go through this coercion. -/
def Value.toInt : Value → Int
  | .bool b => if b then 1 else 0
  | .int n => n

/-- `isinstance(v, bool)`. -/
def Value.isBool : Value → Bool
  | .bool _ => true
  | .int _ => false

/-- `isinstance(v, (int, float))`: true for every value that occurs here,
because Python's bool is itself an int. -/
def Value.isIntOrFloat : Value → Bool
  | .bool _ => true
  | .int _ => true

/-- Python `!=` between two stored values (numeric comparison, with bools
coerced to 0/1). -/
def pyNe (v w : Value) : Bool := v.toInt != w.toInt

/-- A Python dict used as a state bucket: insertion-ordered association
list from field name to value. -/
def Bucket : Type := List (String × Value)

/-- `d[k] = v`: replace the (unique) existing binding in place, or append a
new one. -/
def Bucket.set (b : Bucket) (k : String) (v : Value) : Bucket :=
  match b with
  | [] => [(k, v)]
  | (k', v') :: rest => if k = k' then (k, v) :: rest else (k', v') :: Bucket.set rest k v

/-- `d.get(k)`: first binding for `k`, if any. -/
def Bucket.get? (b : Bucket) (k : String) : Option Value :=
  match b with
  | [] => none
  | (k', v') :: rest => if k = k' then some v' else Bucket.get? rest k

/-- A Python exception escaping the decoder. -/
inductive PyError where
  | indexError
  | structError
deriving DecidableEq, Repr

/-- `data[i]` for a bytes buffer: entries of a Python `bytes` are always
below 256, which the `% 256` view enforces; every use in the decoder is
guarded so that `i < data.length`. -/
def byteD (data : List Nat) (i : Nat) : Nat := data.getD i 0 % 256

/-- `struct.unpack('<h', data[a:a+2])[0]`: little-endian signed 16-bit
integer from the two bytes at offsets `a` and `a+1`. -/
def unpack_i16le (data : List Nat) (a : Nat) : Int :=
  let u := byteD data a + 256 * byteD data (a + 1)
  if u < 32768 then (u : Int) else (u : Int) - 65536

/-- steamdeck.py lines 21-75, `decode_steamdeck_report(data, buttons_state)`.

Each bucket write mirrors one Python assignment, in source order; each
length guard mirrors the exact point at which the Python code would raise:
`data[13]` and `data[14]` raise `IndexError` when the index is out of
range, and `struct.unpack('<h', data[j:j+2])` raises `struct.error` when
the slice holds fewer than two bytes.  When an exception escapes, the
writes made before it persist (the caller's dict was mutated in place).
`(b & (1 << k)) != 0` is `Nat.testBit b k`; the bridge is proved in
`and_one_shift_ne_zero` below. -/
def decode_steamdeck_report (data : List Nat) (buttons_state : Bucket) :
    Bucket × Option PyError :=
  if data.length < 12 then (buttons_state, none)
  else
  let button_byte := byteD data 8
  let bs := Bucket.set buttons_state "R2" (Value.bool (Nat.testBit button_byte 0))
  let bs := Bucket.set bs "L2" (Value.bool (Nat.testBit button_byte 1))
  let bs := Bucket.set bs "R1" (Value.bool (Nat.testBit button_byte 2))
  let bs := Bucket.set bs "L1" (Value.bool (Nat.testBit button_byte 3))
  let bs := Bucket.set bs "Y" (Value.bool (Nat.testBit button_byte 4))
  let bs := Bucket.set bs "B" (Value.bool (Nat.testBit button_byte 5))
  let bs := Bucket.set bs "X" (Value.bool (Nat.testBit button_byte 6))
  let bs := Bucket.set bs "A" (Value.bool (Nat.testBit button_byte 7))
  let arrows_byte := byteD data 9
  let bs := Bucket.set bs "UP" (Value.bool (Nat.testBit arrows_byte 0))
  let bs := Bucket.set bs "RIGHT" (Value.bool (Nat.testBit arrows_byte 1))
  let bs := Bucket.set bs "LEFT" (Value.bool (Nat.testBit arrows_byte 2))
  let bs := Bucket.set bs "DOWN" (Value.bool (Nat.testBit arrows_byte 3))
  let bs := Bucket.set bs "WINDOW" (Value.bool (Nat.testBit arrows_byte 4))
  let bs := Bucket.set bs "STEAM" (Value.bool (Nat.testBit arrows_byte 5))
  let bs := Bucket.set bs "MENU" (Value.bool (Nat.testBit arrows_byte 6))
  let bs := Bucket.set bs "L5" (Value.bool (Nat.testBit arrows_byte 7))
  let pads_byte := byteD data 10
  let bs := Bucket.set bs "R5" (Value.bool (Nat.testBit pads_byte 0))
  let bs := Bucket.set bs "LEFT_PAD_PRESS" (Value.bool (Nat.testBit pads_byte 1))
  let bs := Bucket.set bs "RIGHT_PAD_PRESS" (Value.bool (Nat.testBit pads_byte 2))
  let bs := Bucket.set bs "LEFT_PAD_TOUCH" (Value.bool (Nat.testBit pads_byte 3))
  let bs := Bucket.set bs "RIGHT_PAD_TOUCH" (Value.bool (Nat.testBit pads_byte 4))
  let bs := Bucket.set bs "LEFT_STICK_PRESS" (Value.bool (Nat.testBit pads_byte 6))
  let sticks1_byte := byteD data 11
  let bs := Bucket.set bs "RIGHT_STICK_PRESS" (Value.bool (Nat.testBit sticks1_byte 2))
  -- data[13] raises IndexError when the buffer has at most 13 bytes
  if data.length < 14 then (bs, some PyError.indexError)
  else
  let sticks2_byte := byteD data 13
  let bs := Bucket.set bs "L4" (Value.bool (Nat.testBit sticks2_byte 1))
  let bs := Bucket.set bs "R4" (Value.bool (Nat.testBit sticks2_byte 2))
  let bs := Bucket.set bs "LEFT_STICK_TOUCH" (Value.bool (Nat.testBit sticks2_byte 6))
  let bs := Bucket.set bs "RIGHT_STICK_TOUCH" (Value.bool (Nat.testBit sticks2_byte 7))
  -- data[14] raises IndexError when the buffer has at most 14 bytes
  if data.length < 15 then (bs, some PyError.indexError)
  else
  let aux_byte := byteD data 14
  let bs := Bucket.set bs "MORE" (Value.bool (Nat.testBit aux_byte 2))
  -- struct.unpack on data[48:50] needs the slice to hold two bytes
  if data.length < 50 then (bs, some PyError.structError)
  else
  let bs := Bucket.set bs "LEFT_STICK_X" (Value.int (unpack_i16le data 48))
  if data.length < 52 then (bs, some PyError.structError)
  else
  let bs := Bucket.set bs "LEFT_STICK_Y" (Value.int (unpack_i16le data 50))
  if data.length < 54 then (bs, some PyError.structError)
  else
  let bs := Bucket.set bs "RIGHT_STICK_X" (Value.int (unpack_i16le data 52))
  if data.length < 56 then (bs, some PyError.structError)
  else
  let bs := Bucket.set bs "RIGHT_STICK_Y" (Value.int (unpack_i16le data 54))
  -- pad slices end at offset 24; a buffer that reached this point has at
  -- least 56 bytes, so these reads cannot fail
  let bs := Bucket.set bs "LEFT_PAD_X" (Value.int (unpack_i16le data 16))
  let bs := Bucket.set bs "LEFT_PAD_Y" (Value.int (unpack_i16le data 18))
  let bs := Bucket.set bs "RIGHT_PAD_X" (Value.int (unpack_i16le data 20))
  let bs := Bucket.set bs "RIGHT_PAD_Y" (Value.int (unpack_i16le data 22))
  (bs, none)

/-- steamdeck.py lines 128-146, the body of `_read_hidraw` applied to a
finite list of reads.  A read shorter than 12 bytes (which subsumes the
`not data` check) is skipped for that iteration; otherwise the report is
decoded into the bucket, and an exception escaping the decoder ends the
loop (it is caught and logged at function scope, terminating this
reader). -/
def read_hidraw (reads : List (List Nat)) (bs : Bucket) : Bucket × Option PyError :=
  match reads with
  | [] => (bs, none)
  | data :: rest =>
    if data.length < 12 then read_hidraw rest bs
    else
      match decode_steamdeck_report data bs with
      | (bs', none) => read_hidraw rest bs'
      | (bs', some e) => (bs', some e)

/-- One row of the report layout table of spec section 4.1: a field is
either a digital bit (byte offset, bit index) or a little-endian signed
16-bit axis starting at a byte offset. -/
inductive FieldEntry where
  | digital : Nat → Nat → FieldEntry
  | axis : Nat → FieldEntry
deriving DecidableEq, Repr

/-- The full field layout of spec section 4.1 (and of the claims), used to
STATE properties of the decoder; the decoder itself is the sequence of
writes above, translated from the source. -/
def fieldTable : List (String × FieldEntry) :=
  [("R2", .digital 8 0), ("L2", .digital 8 1), ("R1", .digital 8 2), ("L1", .digital 8 3),
   ("Y", .digital 8 4), ("B", .digital 8 5), ("X", .digital 8 6), ("A", .digital 8 7),
   ("UP", .digital 9 0), ("RIGHT", .digital 9 1), ("LEFT", .digital 9 2), ("DOWN", .digital 9 3),
   ("WINDOW", .digital 9 4), ("STEAM", .digital 9 5), ("MENU", .digital 9 6), ("L5", .digital 9 7),
   ("R5", .digital 10 0), ("LEFT_PAD_PRESS", .digital 10 1), ("RIGHT_PAD_PRESS", .digital 10 2),
   ("LEFT_PAD_TOUCH", .digital 10 3), ("RIGHT_PAD_TOUCH", .digital 10 4),
   ("LEFT_STICK_PRESS", .digital 10 6), ("RIGHT_STICK_PRESS", .digital 11 2),
   ("L4", .digital 13 1), ("R4", .digital 13 2), ("LEFT_STICK_TOUCH", .digital 13 6),
   ("RIGHT_STICK_TOUCH", .digital 13 7), ("MORE", .digital 14 2),
   ("LEFT_PAD_X", .axis 16), ("LEFT_PAD_Y", .axis 18), ("RIGHT_PAD_X", .axis 20),
   ("RIGHT_PAD_Y", .axis 22), ("LEFT_STICK_X", .axis 48), ("LEFT_STICK_Y", .axis 50),
   ("RIGHT_STICK_X", .axis 52), ("RIGHT_STICK_Y", .axis 54)]

/-- The value a table row denotes on a given buffer. -/
def fieldSpecValue (data : List Nat) : FieldEntry → Value
  | .digital o b => Value.bool (Nat.testBit (byteD data o) b)
  | .axis a => Value.int (unpack_i16le data a)

/-- The byte offsets the decoder reads: 8-11, 13, 14, the pad byte pairs
16-23 and the stick byte pairs 48-55. -/
def relevantOffsets : List Nat :=
  [8, 9, 10, 11, 13, 14, 16, 17, 18, 19, 20, 21, 22, 23,
   48, 49, 50, 51, 52, 53, 54, 55]

/-- The eight axis field names. -/
def axisNames : List String :=
  ["LEFT_PAD_X", "LEFT_PAD_Y", "RIGHT_PAD_X", "RIGHT_PAD_Y",
   "LEFT_STICK_X", "LEFT_STICK_Y", "RIGHT_STICK_X", "RIGHT_STICK_Y"]

/-- Toggling the digital bit of the first entry cannot disturb the second
entry: the second entry either reads a different byte, or the same byte at
a different bit. -/
def toggleSafe : FieldEntry → FieldEntry → Bool
  | .digital o b, .digital o2 b2 => (o2 != o) || (b2 != b)
  | .digital o _, .axis a => (a != o) && (a + 1 != o)
  | .axis _, _ => true

/-- Every table row reads only bytes among `relevantOffsets`, and digital
rows use a bit index below 8. -/
def entryOffsetsOk : FieldEntry → Bool
  | .digital o b => decide (o ∈ relevantOffsets) && decide (b < 8)
  | .axis a => decide (a ∈ relevantOffsets) && decide (a + 1 ∈ relevantOffsets)

/-- Observable behaviour of a subscriber callback: for a given
`(key, value)` invocation, `true` means the callback raises an exception,
`false` means it returns normally.  (Callbacks' return values are ignored
by the source, so this is the only behaviour the dispatch loop can see.) -/
def ListenerB : Type := String → Value → Bool

/-- Helper for `on_change`, carrying the index of the next listener:
invoke each listener in registration order; record the index of every
listener actually invoked; stop as soon as one raises, reporting that the
exception escaped.  Mirrors steamdeck.py lines 95-98, where the `for`
loop over `self.listeners` has no try/except around `callback(key,
value)`. -/
def onChangeFrom (i : Nat) (ls : List ListenerB) (key : String) (v : Value) :
    List Nat × Bool :=
  match ls with
  | [] => ([], false)
  | c :: rest =>
    if c key v then ([i], true)
    else
      let r := onChangeFrom (i + 1) rest key v
      (i :: r.1, r.2)

/-- steamdeck.py lines 95-98, `on_change(key, value)`: returns the list of
listener indices invoked (in order) and whether an exception escaped. -/
def on_change (ls : List ListenerB) (key : String) (v : Value) : List Nat × Bool :=
  onChangeFrom 0 ls key v

/-- Result of one aggregator tick: the persistent `prev_state` dict, the
`on_change` calls made (field, value, listeners invoked), and whether a
callback exception escaped the tick (killing the aggregator task). -/
structure TickResult where
  prev : Bucket
  fired : List (String × Value × List Nat)
  exn : Bool

/-- `0 if isinstance(val2, (int, float)) else False` (steamdeck.py line
154).  Because Python's bool is a subclass of int, the first branch is
taken for every value that occurs. -/
def pyDefault (val2 : Value) : Value :=
  if val2.isIntOrFloat then Value.int 0 else Value.bool false

/-- steamdeck.py line 157. -/
def stick_keys : List String :=
  ["LEFT_STICK_X", "LEFT_STICK_Y", "RIGHT_STICK_X", "RIGHT_STICK_Y"]

/-- steamdeck.py line 158. -/
def pad_keys : List String :=
  ["LEFT_PAD_X", "LEFT_PAD_Y", "RIGHT_PAD_X", "RIGHT_PAD_Y"]

/-- steamdeck.py lines 153-166, the `for key, val2 in
all_buttons_state.items()` body, over the merged view's items in order.
On a fired change the source calls `self.on_change(key, val2)` FIRST and
assigns `prev_state[key] = val2` only afterwards (lines 165-166); hence
when a callback raises, the assignment has not happened, the remaining
items are not processed, and the exception escapes the tick. -/
def processItems (ls : List ListenerB) (items : List (String × Value)) (prev : Bucket) :
    TickResult :=
  match items with
  | [] => { prev := prev, fired := [], exn := false }
  | (key, val2) :: rest =>
    let val1 := (Bucket.get? prev key).getD (pyDefault val2)
    if pyNe val1 val2 then
      let is_stick := stick_keys.contains key
      let is_pad := pad_keys.contains key
      let diff : Int := if !val2.isBool then |val2.toInt - val1.toInt| else 0
      if (!is_stick && !is_pad) || (is_stick && decide (200 < diff))
          || (is_pad && decide (100 < diff)) then
        let r := on_change ls key val2
        if r.2 then { prev := prev, fired := [(key, val2, r.1)], exn := true }
        else
          let rest' := processItems ls rest (Bucket.set prev key val2)
          { prev := rest'.prev, fired := (key, val2, r.1) :: rest'.fired, exn := rest'.exn }
      else processItems ls rest prev
    else processItems ls rest prev

/-- steamdeck.py lines 148-168, `_process_inputs` run over a finite
schedule of merged views (one per tick, each the `{**general, **pwr}`
union of the buckets at that instant).  `prev_state` starts empty and
persists across ticks; a callback exception escaping a tick ends the
loop — later ticks never run. -/
def process_inputs (ls : List ListenerB) (mergeds : List (List (String × Value)))
    (prev : Bucket) : Bucket × List (String × Value × List Nat) × Bool :=
  match mergeds with
  | [] => (prev, [], false)
  | m :: rest =>
    let r := processItems ls m prev
    if r.exn then (r.prev, r.fired, true)
    else
      let rest' := process_inputs ls rest r.prev
      (rest'.1, r.fired ++ rest'.2.1, rest'.2.2)

/-- `ecodes.EV_KEY`. -/
def EV_KEY : Nat := 1

/-- steamdeck.py lines 113-117, `btn_map`. -/
def btn_map (code : Nat) : String :=
  if code == 114 then "VOLUME_DOWN" else if code == 115 then "VOLUME_UP" else "POWER"

/-- A discrete evdev input event: its type, key code, and the keystate of
its categorized form (0 = up, 1 = down, 2 = hold). -/
structure InputEvent where
  type : Nat
  code : Nat
  keystate : Nat
deriving DecidableEq, Repr

/-- steamdeck.py lines 108-118, the body of the event loop of
`_read_device_events` for a bucket that is not None: only EV_KEY events
with code 114, 115 or 116 write to the bucket, storing pressed =
(keystate != 0) under the mapped name; everything else leaves the bucket
unchanged. -/
def applyKeyEvent (buttons_state : Bucket) (e : InputEvent) : Bucket :=
  if e.type == EV_KEY then
    if [114, 115, 116].contains e.code then
      Bucket.set buttons_state (btn_map e.code) (Value.bool (e.keystate != 0))
    else buttons_state
  else buttons_state

/-- steamdeck.py lines 100-126, `_read_device_events` over a finite event
sequence. -/
def read_device_events (events : List InputEvent) (buttons_state : Bucket) : Bucket :=
  events.foldl applyKeyEvent buttons_state

theorem Bucket.get?_set (b : Bucket) (k g : String) (v : Value) :
    Bucket.get? (Bucket.set b k v) g = if g = k then some v else Bucket.get? b g := by
  induction b with
  | nil => simp [Bucket.set, Bucket.get?]
  | cons p rest ih =>
    obtain ⟨k', v'⟩ := p
    by_cases hk : k = k'
    · subst hk
      by_cases hg : g = k <;> simp [Bucket.set, Bucket.get?, hg]
    · by_cases hg : g = k'
      · subst hg
        simp [Bucket.set, Bucket.get?, hk, Ne.symm hk]
      · simp [Bucket.set, Bucket.get?, hk, hg, ih]

theorem byteD_lt (data : List Nat) (i : Nat) : byteD data i < 256 :=
  Nat.mod_lt _ (by norm_num)

theorem and_one_shift_ne_zero (x k : Nat) : ((x &&& (1 <<< k)) != 0) = x.testBit k := by
  rw [Nat.one_shiftLeft, Nat.and_two_pow]
  cases h : x.testBit k <;> simp [h]

theorem testBit_xor_one_shift_self (x i : Nat) :
    (x ^^^ (1 <<< i)).testBit i = !(x.testBit i) := by
  rw [Nat.one_shiftLeft, Nat.testBit_xor, Nat.testBit_two_pow_self]
  simp [Bool.xor_comm]

theorem testBit_xor_one_shift_ne (x : Nat) {i j : Nat} (h : i ≠ j) :
    (x ^^^ (1 <<< i)).testBit j = x.testBit j := by
  rw [Nat.one_shiftLeft, Nat.testBit_xor, Nat.testBit_two_pow_of_ne h]
  simp

/-- On a full-length buffer the decoder succeeds and stores, for every
field of the layout table, exactly the value that its table row denotes. -/
theorem decode_get_of_mem (data : List Nat) (bs : Bucket) (h : 56 ≤ data.length)
    (g : String) (e : FieldEntry) (hm : (g, e) ∈ fieldTable) :
    Bucket.get? (decode_steamdeck_report data bs).1 g = some (fieldSpecValue data e) := by
  have h12 : ¬ data.length < 12 := by omega
  have h14 : ¬ data.length < 14 := by omega
  have h15 : ¬ data.length < 15 := by omega
  have h50 : ¬ data.length < 50 := by omega
  have h52 : ¬ data.length < 52 := by omega
  have h54 : ¬ data.length < 54 := by omega
  have h56 : ¬ data.length < 56 := by omega
  fin_cases hm <;>
    simp [decode_steamdeck_report, h12, h14, h15, h50, h52, h54, h56,
      Bucket.get?_set, fieldSpecValue]

/-- On a full-length buffer the decoder raises nothing. -/
theorem decode_full_no_error (data : List Nat) (bs : Bucket) (h : 56 ≤ data.length) :
    (decode_steamdeck_report data bs).2 = none := by
  have h12 : ¬ data.length < 12 := by omega
  have h14 : ¬ data.length < 14 := by omega
  have h15 : ¬ data.length < 15 := by omega
  have h50 : ¬ data.length < 50 := by omega
  have h52 : ¬ data.length < 52 := by omega
  have h54 : ¬ data.length < 54 := by omega
  have h56 : ¬ data.length < 56 := by omega
  simp [decode_steamdeck_report, h12, h14, h15, h50, h52, h54, h56]

theorem unpack_congr (data data' : List Nat) (a : Nat)
    (h1 : byteD data a = byteD data' a) (h2 : byteD data (a + 1) = byteD data' (a + 1)) :
    unpack_i16le data a = unpack_i16le data' a := by
  unfold unpack_i16le
  rw [h1, h2]

theorem fieldTable_toggleSafe :
    ∀ p ∈ fieldTable, ∀ q ∈ fieldTable, p.1 ≠ q.1 → toggleSafe p.2 q.2 = true := by
  decide

theorem fieldTable_offsetsOk : ∀ p ∈ fieldTable, entryOffsetsOk p.2 = true := by
  decide

/-- C10: the decoder reads only the bytes at offsets 8-11, 13-14, 16-23 and
48-55; two full-length buffers that agree there (whatever their other
bytes, or their lengths beyond 56) decode to identical results. -/
theorem decode_depends_only_on_read_offsets (data data' : List Nat) (bs : Bucket)
    (h : 56 ≤ data.length) (h' : 56 ≤ data'.length)
    (hagree : ∀ i ∈ relevantOffsets, byteD data i = byteD data' i) :
    decode_steamdeck_report data bs = decode_steamdeck_report data' bs := by
  have h12 : ¬ data.length < 12 := by omega
  have h14 : ¬ data.length < 14 := by omega
  have h15 : ¬ data.length < 15 := by omega
  have h50 : ¬ data.length < 50 := by omega
  have h52 : ¬ data.length < 52 := by omega
  have h54 : ¬ data.length < 54 := by omega
  have h56 : ¬ data.length < 56 := by omega
  have h12' : ¬ data'.length < 12 := by omega
  have h14' : ¬ data'.length < 14 := by omega
  have h15' : ¬ data'.length < 15 := by omega
  have h50' : ¬ data'.length < 50 := by omega
  have h52' : ¬ data'.length < 52 := by omega
  have h54' : ¬ data'.length < 54 := by omega
  have h56' : ¬ data'.length < 56 := by omega
  have e8 := hagree 8 (by decide)
  have e9 := hagree 9 (by decide)
  have e10 := hagree 10 (by decide)
  have e11 := hagree 11 (by decide)
  have e13 := hagree 13 (by decide)
  have e14 := hagree 14 (by decide)
  have u16 := unpack_congr data data' 16 (hagree 16 (by decide)) (hagree 17 (by decide))
  have u18 := unpack_congr data data' 18 (hagree 18 (by decide)) (hagree 19 (by decide))
  have u20 := unpack_congr data data' 20 (hagree 20 (by decide)) (hagree 21 (by decide))
  have u22 := unpack_congr data data' 22 (hagree 22 (by decide)) (hagree 23 (by decide))
  have u48 := unpack_congr data data' 48 (hagree 48 (by decide)) (hagree 49 (by decide))
  have u50 := unpack_congr data data' 50 (hagree 50 (by decide)) (hagree 51 (by decide))
  have u52 := unpack_congr data data' 52 (hagree 52 (by decide)) (hagree 53 (by decide))
  have u54 := unpack_congr data data' 54 (hagree 54 (by decide)) (hagree 55 (by decide))
  simp [decode_steamdeck_report, h12, h14, h15, h50, h52, h54, h56,
    h12', h14', h15', h50', h52', h54', h56',
    e8, e9, e10, e11, e13, e14, u16, u18, u20, u22, u48, u50, u52, u54]

/-- Witness for `decode_depends_only_on_read_offsets`: the all-zero
56-byte report against the same report with byte 0 (a report-header byte
the decoder never reads) changed to 99. -/
theorem decode_depends_only_on_read_offsets_witness :
    decode_steamdeck_report (List.replicate 56 0) ([] : Bucket)
      = decode_steamdeck_report ((List.replicate 56 0).set 0 99) ([] : Bucket) :=
  decode_depends_only_on_read_offsets (List.replicate 56 0) ((List.replicate 56 0).set 0 99)
    ([] : Bucket) (by decide) (by decide) (by decide)

/-- C5: on a full-length buffer every digital field equals the designated
bit of its designated byte, and flipping that one bit (leaving every other
read offset unchanged) toggles exactly that field: its decoded value
negates, while every other field of the layout decodes unchanged. -/
theorem digital_bit_toggle (data data' : List Nat) (bs : Bucket) (g : String) (o b : Nat)
    (h : 56 ≤ data.length) (h' : 56 ≤ data'.length)
    (hm : (g, FieldEntry.digital o b) ∈ fieldTable)
    (hagree : ∀ i ∈ relevantOffsets, i ≠ o → byteD data' i = byteD data i)
    (hflip : byteD data' o = byteD data o ^^^ (1 <<< b)) :
    Bucket.get? (decode_steamdeck_report data bs).1 g
        = some (Value.bool (Nat.testBit (byteD data o) b)) ∧
    Bucket.get? (decode_steamdeck_report data' bs).1 g
        = some (Value.bool (!(Nat.testBit (byteD data o) b))) ∧
    ∀ g2 e2, (g2, e2) ∈ fieldTable → g2 ≠ g →
      Bucket.get? (decode_steamdeck_report data' bs).1 g2
        = Bucket.get? (decode_steamdeck_report data bs).1 g2 := by
  refine ⟨?_, ?_, ?_⟩
  · simpa [fieldSpecValue] using decode_get_of_mem data bs h g _ hm
  · have hd := decode_get_of_mem data' bs h' g _ hm
    rw [hd]
    simp [fieldSpecValue, hflip, testBit_xor_one_shift_self]
  · intro g2 e2 hm2 hne
    rw [decode_get_of_mem data' bs h' g2 e2 hm2, decode_get_of_mem data bs h g2 e2 hm2]
    have hsafe := fieldTable_toggleSafe _ hm _ hm2 (Ne.symm hne)
    have hok := fieldTable_offsetsOk _ hm2
    cases e2 with
    | digital o2 b2 =>
      simp only [toggleSafe] at hsafe
      simp only [entryOffsetsOk, Bool.and_eq_true, decide_eq_true_eq] at hok
      rcases Bool.or_eq_true .. |>.mp hsafe with ho2 | hb2
      · have ho2' : o2 ≠ o := by simpa using ho2
        simp [fieldSpecValue, hagree o2 hok.1 ho2']
      · have hb2' : b2 ≠ b := by simpa using hb2
        by_cases ho : o2 = o
        · subst ho
          simp [fieldSpecValue, hflip, testBit_xor_one_shift_ne _ (Ne.symm hb2')]
        · simp [fieldSpecValue, hagree o2 hok.1 ho]
    | axis a =>
      simp only [toggleSafe, Bool.and_eq_true] at hsafe
      simp only [entryOffsetsOk, Bool.and_eq_true, decide_eq_true_eq] at hok
      have ha : a ≠ o := by simpa using hsafe.1
      have ha1 : a + 1 ≠ o := by simpa using hsafe.2
      simp [fieldSpecValue,
        unpack_congr data' data a (hagree a hok.1 ha) (hagree (a + 1) hok.2 ha1)]

/-- Witness for `digital_bit_toggle`: the all-zero 56-byte report against
the same report with bit 0 of byte 8 (field R2) set. -/
theorem digital_bit_toggle_witness :
    Bucket.get? (decode_steamdeck_report ((List.replicate 56 0).set 8 1) ([] : Bucket)).1 "R2"
      = some (Value.bool true) ∧
    Bucket.get? (decode_steamdeck_report ((List.replicate 56 0).set 8 1) ([] : Bucket)).1 "L2"
      = Bucket.get? (decode_steamdeck_report (List.replicate 56 0) ([] : Bucket)).1 "L2" := by
  have h := digital_bit_toggle (List.replicate 56 0) ((List.replicate 56 0).set 8 1)
    ([] : Bucket) "R2" 8 0 (by decide) (by decide) (by decide) (by decide) (by decide)
  exact ⟨by simpa using h.2.1, h.2.2 "L2" (FieldEntry.digital 8 1) (by decide) (by decide)⟩

/-- C6: on a full-length buffer the axis fields decode from their
designated byte pairs (pads 16-23, sticks 48-55 per the layout table) as
little-endian signed 16-bit integers, passed through unchanged, so every
decoded axis value lies in [-32768, 32767]. -/
theorem axis_decode_signed16 (data : List Nat) (bs : Bucket) (g : String) (a : Nat)
    (h : 56 ≤ data.length) (hm : (g, FieldEntry.axis a) ∈ fieldTable) :
    Bucket.get? (decode_steamdeck_report data bs).1 g
        = some (Value.int (unpack_i16le data a)) ∧
    -32768 ≤ unpack_i16le data a ∧ unpack_i16le data a ≤ 32767 := by
  refine ⟨by simpa [fieldSpecValue] using decode_get_of_mem data bs h g _ hm, ?_, ?_⟩ <;>
  · have hx := byteD_lt data a
    have hy := byteD_lt data (a + 1)
    by_cases hc : byteD data a + 256 * byteD data (a + 1) < 32768 <;>
      simp [unpack_i16le, hc] <;> omega

/-- Witness for `axis_decode_signed16`: LEFT_STICK_X of a 56-byte report
whose bytes 48-49 hold 0xFF 0x7F, the maximal positive value. -/
theorem axis_decode_signed16_witness :
    Bucket.get? (decode_steamdeck_report (((List.replicate 56 0).set 48 255).set 49 127)
        ([] : Bucket)).1 "LEFT_STICK_X"
      = some (Value.int (unpack_i16le (((List.replicate 56 0).set 48 255).set 49 127) 48)) ∧
    -32768 ≤ unpack_i16le (((List.replicate 56 0).set 48 255).set 49 127) 48 ∧
    unpack_i16le (((List.replicate 56 0).set 48 255).set 49 127) 48 ≤ 32767 :=
  axis_decode_signed16 (((List.replicate 56 0).set 48 255).set 49 127) ([] : Bucket)
    "LEFT_STICK_X" 48 (by decide) (by decide)

/-- C1 (amended): a buffer whose length is at least 12 but below 56 makes
the decoder raise (IndexError at offset 13 or 14, or struct.error at an
axis unpack) instead of succeeding; while the buffer stays below 50 bytes
no axis field is ever written, so the eight axis fields are left exactly
as they were in the bucket. -/
theorem decode_mid_length_raises (data : List Nat) (bs : Bucket)
    (h1 : 12 ≤ data.length) (h2 : data.length < 56) :
    (decode_steamdeck_report data bs).2.isSome = true ∧
    (data.length < 50 → ∀ g ∈ axisNames,
      Bucket.get? (decode_steamdeck_report data bs).1 g = Bucket.get? bs g) := by
  have h12 : ¬ data.length < 12 := by omega
  by_cases h14 : data.length < 14
  · refine ⟨by simp [decode_steamdeck_report, h12, h14], fun _ g hg => ?_⟩
    fin_cases hg <;> simp [decode_steamdeck_report, h12, h14, Bucket.get?_set]
  · by_cases h15 : data.length < 15
    · refine ⟨by simp [decode_steamdeck_report, h12, h14, h15], fun _ g hg => ?_⟩
      fin_cases hg <;> simp [decode_steamdeck_report, h12, h14, h15, Bucket.get?_set]
    · by_cases h50 : data.length < 50
      · refine ⟨by simp [decode_steamdeck_report, h12, h14, h15, h50], fun _ g hg => ?_⟩
        fin_cases hg <;> simp [decode_steamdeck_report, h12, h14, h15, h50, Bucket.get?_set]
      · refine ⟨?_, fun hlt => absurd hlt (by omega)⟩
        by_cases h52 : data.length < 52
        · simp [decode_steamdeck_report, h12, h14, h15, h50, h52]
        · by_cases h54 : data.length < 54
          · simp [decode_steamdeck_report, h12, h14, h15, h50, h52, h54]
          · have h56 : data.length < 56 := h2
            simp [decode_steamdeck_report, h12, h14, h15, h50, h52, h54, h56]

/-- Witness for `decode_mid_length_raises`: a 13-byte buffer. -/
theorem decode_mid_length_raises_witness :
    (decode_steamdeck_report (List.replicate 13 0) ([] : Bucket)).2.isSome = true ∧
    ((List.replicate 13 0).length < 50 → ∀ g ∈ axisNames,
      Bucket.get? (decode_steamdeck_report (List.replicate 13 0) ([] : Bucket)).1 g
        = Bucket.get? ([] : Bucket) g) :=
  decode_mid_length_raises (List.replicate 13 0) ([] : Bucket) (by decide) (by decide)

/-- Counterexample to C1 as stated: a legal 12-byte buffer does not make
`decode_steamdeck_report` succeed — reading `data[13]` raises IndexError. -/
theorem decode_len12_raises :
    (decode_steamdeck_report (List.replicate 12 0) ([] : Bucket)).2
      = some PyError.indexError := by
  decide

/-- C8: a buffer shorter than 12 bytes makes the decoder return without an
error and without touching the bucket, and the raw-report reader skips such
a read for that iteration (the loop goes on with the same bucket), never
treating it as fatal. -/
theorem short_read_skipped (data : List Nat) (bs : Bucket) (reads : List (List Nat))
    (h : data.length < 12) :
    decode_steamdeck_report data bs = (bs, none) ∧
    read_hidraw (data :: reads) bs = read_hidraw reads bs := by
  constructor
  · simp [decode_steamdeck_report, h]
  · simp [read_hidraw, h]

/-- Witness for `short_read_skipped`: an 11-byte read. -/
theorem short_read_skipped_witness :
    decode_steamdeck_report (List.replicate 11 7) ([("A", Value.bool true)] : Bucket)
        = ([("A", Value.bool true)], none) ∧
    read_hidraw [List.replicate 11 7] ([("A", Value.bool true)] : Bucket)
        = read_hidraw [] ([("A", Value.bool true)] : Bucket) :=
  short_read_skipped (List.replicate 11 7) ([("A", Value.bool true)] : Bucket) [] (by decide)

theorem Value.toInt_int (n : Int) : (Value.int n).toInt = n := rfl

theorem Value.toInt_bool (b : Bool) : (Value.bool b).toInt = (if b then 1 else 0) := rfl

/-- C2: for an axis field the aggregator fires iff the absolute difference
between the current merged value and the last announced value (default 0)
exceeds the class threshold — 200 for stick axes, 100 for pad axes; and
from announced value 0, the stick-axis inputs 50, 90, 150, 210 fire
exactly once, at 210. -/
theorem axis_threshold_fires (prev : Bucket) (key : String) (c : Int)
    (hk : stick_keys.contains key = true ∨ pad_keys.contains key = true) :
    ((processItems [] [(key, Value.int c)] prev).fired ≠ [] ↔
      (if stick_keys.contains key then (200 : Int) else 100)
        < |c - ((Bucket.get? prev key).getD (Value.int 0)).toInt|) ∧
    (process_inputs []
        [[("LEFT_STICK_X", Value.int 50)], [("LEFT_STICK_X", Value.int 90)],
         [("LEFT_STICK_X", Value.int 150)], [("LEFT_STICK_X", Value.int 210)]] []).2.1
      = [("LEFT_STICK_X", Value.int 210, [])] := by
  constructor
  · rcases hk with hs | hp
    · have hpadf : pad_keys.contains key = false := by
        have hmem : key ∈ stick_keys := by simpa using hs
        fin_cases hmem <;> decide
      simp only [hs, if_true]
      simp [processItems, pyDefault, Value.isIntOrFloat, Value.isBool, pyNe,
        on_change, onChangeFrom, Value.toInt_int, hs, hpadf]
      split_ifs <;> simp_all
    · have hstif : stick_keys.contains key = false := by
        have hmem : key ∈ pad_keys := by simpa using hp
        fin_cases hmem <;> decide
      simp only [hstif, if_false]
      simp [processItems, pyDefault, Value.isIntOrFloat, Value.isBool, pyNe,
        on_change, onChangeFrom, Value.toInt_int, hp, hstif]
      split_ifs <;> simp_all
  · decide

/-- Witness for `axis_threshold_fires`: a stick axis moving from announced
0 to 300 fires. -/
theorem axis_threshold_fires_witness :
    ((processItems [] [("LEFT_STICK_X", Value.int 300)] ([] : Bucket)).fired ≠ [] ↔
      (if stick_keys.contains "LEFT_STICK_X" then (200 : Int) else 100)
        < |300 - ((Bucket.get? ([] : Bucket) "LEFT_STICK_X").getD (Value.int 0)).toInt|) ∧
    (process_inputs []
        [[("LEFT_STICK_X", Value.int 50)], [("LEFT_STICK_X", Value.int 90)],
         [("LEFT_STICK_X", Value.int 150)], [("LEFT_STICK_X", Value.int 210)]] []).2.1
      = [("LEFT_STICK_X", Value.int 210, [])] :=
  axis_threshold_fires ([] : Bucket) "LEFT_STICK_X" 300 (Or.inl (by decide))

/-- C7: for a digital (non-axis) field the aggregator fires iff the current
merged value differs (in Python's sense) from the previously announced one,
defaulting to false when never announced — no threshold involved; and a
field whose first appearance carries its class default (false, or 0 for an
axis) is never dispatched. -/
theorem digital_fires_iff (prev : Bucket) (key : String) (b : Bool)
    (hs : stick_keys.contains key = false) (hp : pad_keys.contains key = false) :
    ((processItems [] [(key, Value.bool b)] prev).fired ≠ [] ↔
      pyNe ((Bucket.get? prev key).getD (Value.bool false)) (Value.bool b) = true) ∧
    (∀ v, Bucket.get? prev key = none → (v = Value.bool false ∨ v = Value.int 0) →
      (processItems [] [(key, v)] prev).fired = []) := by
  have hs' : key ∉ stick_keys := by simpa using hs
  have hp' : key ∉ pad_keys := by simpa using hp
  constructor
  · cases hq : Bucket.get? prev key with
    | none =>
      cases b <;>
        simp [processItems, pyDefault, Value.isIntOrFloat, Value.isBool, pyNe,
          on_change, onChangeFrom, hs, hp, hs', hp', hq, Value.toInt]
    | some w =>
      simp only [processItems, pyDefault, Value.isIntOrFloat, hq, Option.getD_some]
      simp [on_change, onChangeFrom, hs, hp, hs', hp']
      split_ifs <;> simp_all
  · intro v hnone hv
    rcases hv with rfl | rfl <;>
      simp [processItems, pyDefault, Value.isIntOrFloat, Value.isBool, pyNe,
        on_change, onChangeFrom, hnone, Value.toInt]

/-- Witness for `digital_fires_iff`: button A, never announced, seen
pressed. -/
theorem digital_fires_iff_witness :
    ((processItems [] [("A", Value.bool true)] ([] : Bucket)).fired ≠ [] ↔
      pyNe ((Bucket.get? ([] : Bucket) "A").getD (Value.bool false)) (Value.bool true) = true) ∧
    (∀ v, Bucket.get? ([] : Bucket) "A" = none → (v = Value.bool false ∨ v = Value.int 0) →
      (processItems [] [("A", v)] ([] : Bucket)).fired = []) :=
  digital_fires_iff ([] : Bucket) "A" true (by decide) (by decide)

/-- A tick leaves `prev_state` untouched at every key that none of its
items carries. -/
theorem processItems_prev_stable (ls : List ListenerB) (items : List (String × Value)) :
    ∀ (prev : Bucket) (k : String), (∀ p ∈ items, p.1 ≠ k) →
      Bucket.get? (processItems ls items prev).prev k = Bucket.get? prev k := by
  induction items with
  | nil => intro prev k _; rfl
  | cons it rest ih =>
    intro prev k h
    obtain ⟨key, val2⟩ := it
    have hk : key ≠ k := h (key, val2) (by simp)
    have hrest : ∀ p ∈ rest, p.1 ≠ k := fun p hp => h p (by simp [hp])
    simp only [processItems]
    split_ifs <;>
      first
      | rfl
      | exact ih prev k hrest
      | · show Bucket.get? (processItems ls rest (Bucket.set prev key val2)).prev k
              = Bucket.get? prev k
          rw [ih (Bucket.set prev key val2) k hrest, Bucket.get?_set]
          simp [Ne.symm hk]

/-- Every `on_change` call a tick records carries exactly the dispatcher's
invocation record for that (field, value); and when no callback exception
escaped the tick, `prev_state` afterwards maps the field to the dispatched
value. -/
theorem processItems_fired_spec (ls : List ListenerB) (items : List (String × Value)) :
    ∀ (prev : Bucket), (items.map Prod.fst).Nodup →
      ∀ (key : String) (v : Value) (inv : List Nat),
        (key, v, inv) ∈ (processItems ls items prev).fired →
          inv = (on_change ls key v).1 ∧
          ((processItems ls items prev).exn = false →
            Bucket.get? (processItems ls items prev).prev key = some v) := by
  induction items with
  | nil => intro prev _ key v inv hmem; simp [processItems] at hmem
  | cons it rest ih =>
    intro prev hnd key v inv hmem
    obtain ⟨key0, val2⟩ := it
    rw [List.map_cons] at hnd
    obtain ⟨hk0m, hnd'⟩ := List.nodup_cons.mp hnd
    have hk0 : ∀ p ∈ rest, p.1 ≠ key0 := by
      intro p hp hcon
      exact hk0m (List.mem_map.mpr ⟨p, hp, hcon⟩)
    simp only [processItems] at hmem ⊢
    split_ifs at hmem ⊢ with h1 h2 h3 h4
    all_goals
      first
      | exact ih prev hnd' key v inv hmem
      | · -- a raising callback: the only recorded call is this one
          dsimp only at hmem ⊢
          have h' : key = key0 ∧ v = val2 ∧ inv = (on_change ls key0 val2).1 := by
            simpa using hmem
          obtain ⟨rfl, rfl, rfl⟩ := h'
          exact ⟨rfl, fun hf => by simp at hf⟩
      | · -- a successful dispatch followed by the prev_state update
          dsimp only at hmem ⊢
          rcases List.mem_cons.mp hmem with heq | htail
          · have h' : key = key0 ∧ v = val2 ∧ inv = (on_change ls key0 val2).1 := by
              simpa using heq
            obtain ⟨rfl, rfl, rfl⟩ := h'
            refine ⟨rfl, fun _ => ?_⟩
            rw [processItems_prev_stable ls rest (Bucket.set prev key v) key hk0,
              Bucket.get?_set]
            simp
          · exact ih (Bucket.set prev key0 val2) hnd' key v inv htail

/-- Counterexample to C4 as stated: the source calls `self.on_change(key,
val2)` first (line 165) and assigns `prev_state[key] = val2` only
afterwards (line 166).  With one always-raising listener the tick
dispatches the change for ("A", True) — the dispatcher is invoked, as the
recorded call with listener 0 shows — yet `prev_state` never receives the
announced value, which could not happen if the update preceded the
invocation. -/
theorem dispatch_precedes_announce_update :
    (processItems [fun _ _ => true] [("A", Value.bool true)] ([] : Bucket)).fired
        = [("A", Value.bool true, [0])] ∧
    Bucket.get? (processItems [fun _ _ => true] [("A", Value.bool true)] ([] : Bucket)).prev
        "A" = none := by
  exact ⟨rfl, rfl⟩

/-- C4 (amended): whenever a change fires, the aggregator invokes the
Dispatcher with (field, curr) and then updates AnnouncedState[field] =
curr (so the update does not happen when a callback raises); consequently,
whenever the tick completes without a callback exception, every later
debounce comparison for that field is made against the newly announced
value — e.g. a stick axis announced at 210 does not fire at 300 even
though 300 exceeds the original baseline 0 by more than 200. -/
theorem fired_change_updates_announced (ls : List ListenerB)
    (items : List (String × Value)) (prev : Bucket)
    (hnd : (items.map Prod.fst).Nodup) :
    (∀ key v inv, (key, v, inv) ∈ (processItems ls items prev).fired →
      inv = (on_change ls key v).1 ∧
      ((processItems ls items prev).exn = false →
        Bucket.get? (processItems ls items prev).prev key = some v)) ∧
    (process_inputs []
        [[("LEFT_STICK_X", Value.int 210)], [("LEFT_STICK_X", Value.int 300)]] []).2.1
      = [("LEFT_STICK_X", Value.int 210, [])] :=
  ⟨fun key v inv hmem => processItems_fired_spec ls items prev hnd key v inv hmem, by decide⟩

/-- Witness for `fired_change_updates_announced`: a single-item tick firing
button A with no listeners. -/
theorem fired_change_updates_announced_witness :
    (∀ key v inv,
      (key, v, inv) ∈ (processItems [] [("A", Value.bool true)] ([] : Bucket)).fired →
      inv = (on_change [] key v).1 ∧
      ((processItems [] [("A", Value.bool true)] ([] : Bucket)).exn = false →
        Bucket.get? (processItems [] [("A", Value.bool true)] ([] : Bucket)).prev key
          = some v)) ∧
    (process_inputs []
        [[("LEFT_STICK_X", Value.int 210)], [("LEFT_STICK_X", Value.int 300)]] []).2.1
      = [("LEFT_STICK_X", Value.int 210, [])] :=
  fired_change_updates_announced [] [("A", Value.bool true)] ([] : Bucket) (by decide)

/-- C3 is violated by the code: `on_change` (lines 95-98) has no
try/except around `callback(key, value)`, so with listeners [raiser,
recorder] the raising listener 0 is the only one invoked ([0], not [0,
1]), the exception escapes the tick, and the next tick — which would have
fired field "B" — never runs: the recorded calls of the two-tick schedule
stop at ("A", True). -/
theorem callback_exception_stops_dispatch_and_ticks :
    (on_change [fun _ _ => true, fun _ _ => false] "A" (Value.bool true)).1 = [0] ∧
    (on_change [fun _ _ => true, fun _ _ => false] "A" (Value.bool true)).2 = true ∧
    (processItems [fun _ _ => true, fun _ _ => false]
        [("A", Value.bool true)] ([] : Bucket)).exn = true ∧
    (process_inputs [fun _ _ => true, fun _ _ => false]
        [[("A", Value.bool true)], [("B", Value.bool true)]] []).2.1
      = [("A", Value.bool true, [0])] :=
  ⟨rfl, rfl, rfl, rfl⟩

theorem applyKeyEvent_no_match (bs : Bucket) (e : InputEvent)
    (h : e.type ≠ EV_KEY ∨ (e.code ≠ 114 ∧ e.code ≠ 115 ∧ e.code ≠ 116)) :
    applyKeyEvent bs e = bs := by
  rcases h with h | ⟨h1, h2, h3⟩
  · simp [applyKeyEvent, h]
  · simp [applyKeyEvent, h1, h2, h3]

theorem read_device_events_no_match (events : List InputEvent) :
    ∀ bs : Bucket,
      (∀ ev ∈ events, ev.type ≠ EV_KEY ∨ (ev.code ≠ 114 ∧ ev.code ≠ 115 ∧ ev.code ≠ 116)) →
      read_device_events events bs = bs := by
  induction events with
  | nil => intro bs _; rfl
  | cons e rest ih =>
    intro bs h
    show read_device_events rest (applyKeyEvent bs e) = bs
    rw [applyKeyEvent_no_match bs e (h e (by simp))]
    exact ih bs fun ev hev => h ev (by simp [hev])

/-- C9: the keyed-event reader writes to its bucket only for EV_KEY events
with code 114, 115 or 116, storing under VOLUME_DOWN, VOLUME_UP or POWER
respectively the boolean keystate != 0; an event of any other code or
type — and hence a whole stream of them — leaves the bucket unchanged. -/
theorem key_event_reader_spec (bs : Bucket) (e : InputEvent) :
    (e.type = EV_KEY → e.code = 114 →
      applyKeyEvent bs e = Bucket.set bs "VOLUME_DOWN" (Value.bool (e.keystate != 0))) ∧
    (e.type = EV_KEY → e.code = 115 →
      applyKeyEvent bs e = Bucket.set bs "VOLUME_UP" (Value.bool (e.keystate != 0))) ∧
    (e.type = EV_KEY → e.code = 116 →
      applyKeyEvent bs e = Bucket.set bs "POWER" (Value.bool (e.keystate != 0))) ∧
    (e.type ≠ EV_KEY ∨ (e.code ≠ 114 ∧ e.code ≠ 115 ∧ e.code ≠ 116) →
      applyKeyEvent bs e = bs) ∧
    (∀ events : List InputEvent,
      (∀ ev ∈ events, ev.type ≠ EV_KEY ∨ (ev.code ≠ 114 ∧ ev.code ≠ 115 ∧ ev.code ≠ 116)) →
      read_device_events events bs = bs) := by
  refine ⟨?_, ?_, ?_, applyKeyEvent_no_match bs e, fun evs h => read_device_events_no_match evs bs h⟩
  all_goals intro h1 h2
  all_goals simp [applyKeyEvent, btn_map, h1, h2, EV_KEY]

/-- Witness for `key_event_reader_spec`: a volume-up key press is stored;
an EV_ABS event (type 3) leaves the bucket alone. -/
theorem key_event_reader_spec_witness :
    applyKeyEvent ([] : Bucket) ⟨1, 115, 1⟩
        = Bucket.set ([] : Bucket) "VOLUME_UP" (Value.bool (((1 : Nat) != 0))) ∧
    applyKeyEvent ([] : Bucket) ⟨3, 0, 1⟩ = ([] : Bucket) :=
  ⟨(key_event_reader_spec ([] : Bucket) ⟨1, 115, 1⟩).2.1 rfl rfl,
   (key_event_reader_spec ([] : Bucket) ⟨3, 0, 1⟩).2.2.2.1 (Or.inl (by decide))⟩

end SteamDeckHID
